import Mathlib

/-!
Verification of the event-reconstruction core of the ai-werewolf frontend:
the WebSocket transport status machine, the event reducer of
`useGameWebSocket` (src/frontend/src/services/websocket.ts), and the
timeline segmenter `groupLogsByRound`.

Machine integers of the source are small JavaScript numbers used as ids and
round counters; they are modelled as `Nat`.  JavaScript truthiness of the
source (`x || d`, ternaries on possibly-`undefined` or `0` values) is made
explicit wherever the source relies on it.
-/

/-- `PlayerInfo` from websocket.ts: one roster entry. -/
structure PlayerInfo where
  role : String
  faction : String
  is_alive : Bool
  is_sheriff : Bool
  llm_config_id : Option Nat
deriving DecidableEq

/-- Duck-typed event payload: the union of all payload fields the reducer and
the segmenter read.  A field that is absent from a given JSON payload
(`undefined` in JavaScript) is `none`. -/
structure EventData where
  phase : Option String := none
  round : Option Nat := none
  player_id : Option Nat := none
  player_ids : Option (List Nat) := none
  wolf_id : Option Nat := none
  target : Option Nat := none
  discussion_round : Option Nat := none
  speech : Option String := none
  ai_notes : Option String := none
  channel : Option String := none
  voter_id : Option Nat := none
  sheriff_id : Option Nat := none
  toId : Option Nat := none
  winner : Option String := none
  action : Option String := none
  cause : Option String := none
deriving DecidableEq

/-- `GameEvent`: `{type: string, data: object}` as delivered by the transport.
The `type` is kept as a raw string so that unrecognized types are expressible. -/
structure GameEvent where
  type : String
  data : EventData
deriving DecidableEq

/-- `GameLog` from websocket.ts: one entry of the append-only event log. -/
structure GameLog where
  id : Nat
  type : String
  data : EventData
  timestamp : Nat
deriving DecidableEq

/-- `GameUIState` from websocket.ts.  `players` is the JavaScript
`Record<string, PlayerInfo>`, modelled as an association list with string
keys; `phase` is `Option String` because a malformed `phase_change` payload
would store `undefined` in the source. -/
structure GameUIState where
  phase : Option String
  round : Nat
  winner : Option String
  paused : Bool
  thinkingPlayers : List Nat
  logs : List GameLog
  nightActions : List EventData
  players : List (String × PlayerInfo)
  sheriff : Option Nat
deriving DecidableEq

/-- The reducer's full mutable context: the React state plus the module-level
`logIdRef` counter used to assign local sequence ids. -/
structure ReducerState where
  ui : GameUIState
  nextLogId : Nat
deriving DecidableEq

/-- Initial state of `useGameWebSocket` (before the bootstrap fetch). -/
def initialUIState : GameUIState :=
  { phase := some "GAME_START"
  , round := 0
  , winner := none
  , paused := false
  , thinkingPlayers := []
  , logs := []
  , nightActions := []
  , players := []
  , sheriff := none }

def initialReducerState : ReducerState :=
  { ui := initialUIState, nextLogId := 0 }

/-- JavaScript `x || d` on a number that may be absent: `undefined`, `null`
and `0` are all falsy, so `some 0` and `none` both yield the default. -/
def jsOrNat : Option Nat → Nat → Nat
  | some r, d => if r = 0 then d else r
  | none, d => d

/-- `addLog` from websocket.ts: unconditionally appends
`{id: ++logIdRef.current, type, data, timestamp}` to `logs`. -/
def addLog (rs : ReducerState) (type : String) (data : EventData) (now : Nat) : ReducerState :=
  { ui := { rs.ui with
              logs := rs.ui.logs ++ [{ id := rs.nextLogId + 1, type := type
                                     , data := data, timestamp := now }] }
  , nextLogId := rs.nextLogId + 1 }

/-- The sequential (one-actor-at-a-time) phase tags of the `ai_thinking`
handler. -/
def sequentialPhases : List String :=
  ["vote", "discussion", "last_words", "sheriff_register", "sheriff_speech",
   "sheriff_vote", "sheriff_adjust_order", "hunter_shoot"]

/-- `sequentialPhases.includes(phase)`; an absent phase tag is not sequential. -/
def isSequentialThinking : Option String → Bool
  | some p => sequentialPhases.contains p
  | none => false

/-- `event.data.player_ids ? ... : event.data.player_id ? [..] : []`.
JavaScript truthiness: any array (even empty) is truthy, and a numeric
`player_id` of `0` is falsy. -/
def aiThinkingIds (d : EventData) : List Nat :=
  match d.player_ids with
  | some l => l
  | none =>
    match d.player_id with
    | some pid => if pid = 0 then [] else [pid]
    | none => []

/-- `[...new Set([...prev, ...ids])]`: deduplication keeping the first
occurrence of each element, in insertion order. -/
def jsSetDedup : List Nat → List Nat
  | [] => []
  | x :: xs => x :: (jsSetDedup xs).filter (fun y => decide (y ≠ x))

/-- Association-list lookup, the model of `record[key]`. -/
def lookupPlayer : List (String × PlayerInfo) → String → Option PlayerInfo
  | [], _ => none
  | (k, p) :: rest, key => if k = key then some p else lookupPlayer rest key

/-- The clear-old-sheriff loop: every entry ends with `is_sheriff = false`. -/
def clearSheriffFlags (ps : List (String × PlayerInfo)) : List (String × PlayerInfo) :=
  ps.map (fun kp => (kp.1, { kp.2 with is_sheriff := false }))

/-- `if (updatedPlayers[sid]) updatedPlayers[sid] = {..., is_sheriff: true}`:
set the flag at `key` when present, no-op when the key is absent. -/
def setSheriffFlag (ps : List (String × PlayerInfo)) (key : String) :
    List (String × PlayerInfo) :=
  ps.map (fun kp => if kp.1 = key then (kp.1, { kp.2 with is_sheriff := true }) else kp)

/-- `players[pid] = {...p, is_alive: false}` of the death handler. -/
def markDead (ps : List (String × PlayerInfo)) (key : String) :
    List (String × PlayerInfo) :=
  ps.map (fun kp => if kp.1 = key then (kp.1, { kp.2 with is_alive := false }) else kp)

/-- `d.phase === "register_decision" && typeof d.player_id === "number"` branch
of the sheriff_election handler. -/
def sheriffRegisterStep (d : EventData) (s : GameUIState) : GameUIState :=
  if d.phase = some "register_decision" then
    match d.player_id with
    | some pid =>
      { s with thinkingPlayers := s.thinkingPlayers.filter (fun id => decide (id ≠ pid)) }
    | none => s
  else s

/-- `d.phase === "vote_cast" && typeof d.voter_id === "number"` branch. -/
def sheriffVoteStep (d : EventData) (s : GameUIState) : GameUIState :=
  if d.phase = some "vote_cast" then
    match d.voter_id with
    | some vid =>
      { s with thinkingPlayers := s.thinkingPlayers.filter (fun id => decide (id ≠ vid)) }
    | none => s
  else s

/-- `d.phase === "elected"` branch: clear every `is_sheriff` flag, then set it
on `String(d.sheriff_id)` when that key is in the roster; `sheriff` is set to
the announced id unconditionally. -/
def sheriffElectedStep (d : EventData) (s : GameUIState) : GameUIState :=
  if d.phase = some "elected" then
    match d.sheriff_id with
    | some sid =>
      { s with sheriff := some sid
             , players := setSheriffFlag (clearSheriffFlags s.players) (Nat.repr sid) }
    | none => s
  else s

/-- `d.phase === "badge_transferred"` branch.  The backend payload field is
named `to`, a reserved word here, embedded as `toId`. -/
def sheriffTransferStep (d : EventData) (s : GameUIState) : GameUIState :=
  if d.phase = some "badge_transferred" then
    match d.toId with
    | some tid =>
      { s with sheriff := some tid
             , players := setSheriffFlag (clearSheriffFlags s.players) (Nat.repr tid) }
    | none => s
  else s

/-- `d.phase === "badge_destroyed"` branch: clear all flags, `sheriff := null`. -/
def sheriffDestroyStep (d : EventData) (s : GameUIState) : GameUIState :=
  if d.phase = some "badge_destroyed" then
    { s with sheriff := none, players := clearSheriffFlags s.players }
  else s

/-- The `game.sheriff_election` case: five independent, sequentially-applied
guarded blocks (their guards are mutually exclusive values of `d.phase`). -/
def applySheriffElection (d : EventData) (s : GameUIState) : GameUIState :=
  sheriffDestroyStep d
    (sheriffTransferStep d
      (sheriffElectedStep d
        (sheriffVoteStep d
          (sheriffRegisterStep d s))))

/-- The `game.death` case: look up `String(player_id)`; when the actor is
unknown the whole mutation is skipped (`if (!p) return prev`), otherwise flip
`is_alive` and remove the actor from the pending set. -/
def deathStep (d : EventData) (s : GameUIState) : GameUIState :=
  match d.player_id with
  | none => s
  | some pid =>
    match lookupPlayer s.players (Nat.repr pid) with
    | none => s
    | some _ =>
      { s with players := markDead s.players (Nat.repr pid)
             , thinkingPlayers := s.thinkingPlayers.filter (fun id => decide (id ≠ pid)) }

/-- The typed part of the reducer: the `switch (event.type)` of
`useGameWebSocket`'s `onEvent` handler, applied after the unconditional
`addLog`.  Timer side effects (arming and disarming of the 30-second
fallback timers) live outside the snapshot and are not part of this state
transition.  An event type with no case leaves the state unchanged. -/
def applyTyped (e : GameEvent) (s : GameUIState) : GameUIState :=
  if e.type = "game.phase_change" then
    { s with phase := e.data.phase
           , round := jsOrNat e.data.round s.round
           , nightActions := if e.data.phase = some "NIGHT_PHASE" then [] else s.nightActions
           , thinkingPlayers := [] }
  else if e.type = "game.night_action" then
    { s with nightActions := s.nightActions ++ [e.data]
           , thinkingPlayers :=
               s.thinkingPlayers.filter (fun id => decide (some id ≠ e.data.player_id)) }
  else if e.type = "game.wolf_discussion" then
    { s with nightActions := s.nightActions ++
               [{ channel := some "wolf_discussion"
                , player_id := e.data.wolf_id
                , target := e.data.target
                , discussion_round := e.data.discussion_round
                , speech := e.data.speech
                , ai_notes := e.data.ai_notes }]
           , thinkingPlayers :=
               s.thinkingPlayers.filter (fun id => decide (some id ≠ e.data.wolf_id)) }
  else if e.type = "game.ai_thinking" then
    { s with thinkingPlayers :=
        if isSequentialThinking e.data.phase then aiThinkingIds e.data
        else jsSetDedup (s.thinkingPlayers ++ aiThinkingIds e.data) }
  else if e.type = "game.speech" then
    { s with thinkingPlayers :=
        s.thinkingPlayers.filter (fun id => decide (some id ≠ e.data.player_id)) }
  else if e.type = "game.vote_cast" then
    { s with thinkingPlayers :=
        s.thinkingPlayers.filter (fun id => decide (some id ≠ e.data.voter_id)) }
  else if e.type = "game.death" then
    deathStep e.data s
  else if e.type = "game.end" then
    { s with winner := e.data.winner, phase := some "GAME_END" }
  else if e.type = "game.control" then
    { s with paused := decide (e.data.action = some "paused") }
  else if e.type = "game.sheriff_election" then
    applySheriffElection e.data s
  else s

/-- The event types that have a case in the reducer's switch; `game.vote`,
`game.judge_narration` and `game.error` are in the vocabulary but have no
case, exactly like a future unknown type. -/
def handledTypes : List String :=
  ["game.phase_change", "game.night_action", "game.wolf_discussion",
   "game.ai_thinking", "game.speech", "game.vote_cast", "game.death",
   "game.end", "game.control", "game.sheriff_election"]

/-- One full reducer step: unconditional `addLog`, then the typed switch. -/
def applyEvent (rs : ReducerState) (e : GameEvent) (now : Nat) : ReducerState :=
  let rs' := addLog rs e.type e.data now
  { rs' with ui := applyTyped e rs'.ui }

/-- Reduce a sequence of timestamped events in arrival order. -/
def applyEvents (rs : ReducerState) : List (GameEvent × Nat) → ReducerState
  | [] => rs
  | (e, t) :: rest => applyEvents (applyEvent rs e t) rest

/-- The entries `addLog` appends for a sequence of events, starting from a
given value of the local id counter. -/
def expectedLogs : Nat → List (GameEvent × Nat) → List GameLog
  | _, [] => []
  | n, (e, t) :: rest =>
    { id := n + 1, type := e.type, data := e.data, timestamp := t } :: expectedLogs (n + 1) rest

/-- `RoundGroup` of the timeline grouping utility. -/
structure RoundGroup where
  round : Nat
  nightLogs : List GameLog
  dayLogs : List GameLog
deriving DecidableEq

/-- `nightLogs.length > 0 || dayLogs.length > 0`. -/
def roundGroupNonEmpty (g : RoundGroup) : Bool :=
  !(g.nightLogs.isEmpty && g.dayLogs.isEmpty)

def pushNight (g : RoundGroup) (l : GameLog) : RoundGroup :=
  { g with nightLogs := g.nightLogs ++ [l] }

def pushDay (g : RoundGroup) (l : GameLog) : RoundGroup :=
  { g with dayLogs := g.dayLogs ++ [l] }

/-- Bucket a log into the night or day list of the current group according to
the cursor phase tag. -/
def pushCurrent (phase : String) (g : RoundGroup) (l : GameLog) : RoundGroup :=
  if phase = "night" then pushNight g l else pushDay g l

/-- The loop of `groupLogsByRound`, with the mutable cursor made explicit:
remaining logs, flushed groups, cursor round, cursor phase tag, in-progress
group.  The source's `GAME_END` and catch-all phase-change branches both
bucket by the cursor phase tag, as does the non-phase-change branch. -/
def groupGo : List GameLog → List RoundGroup → Nat → String → RoundGroup → List RoundGroup
  | [], groups, _, _, cur =>
    if roundGroupNonEmpty cur then groups ++ [cur] else groups
  | log :: rest, groups, currentRound, currentPhase, cur =>
    if log.type = "game.phase_change" then
      if log.data.phase = some "NIGHT_PHASE" then
        let newRound := jsOrNat log.data.round (currentRound + 1)
        let groups' := if roundGroupNonEmpty cur then groups ++ [cur] else groups
        groupGo rest groups' newRound "night"
          { round := newRound, nightLogs := [log], dayLogs := [] }
      else if log.data.phase = some "DAY_PHASE" then
        groupGo rest groups currentRound "day" (pushDay cur log)
      else
        groupGo rest groups currentRound currentPhase (pushCurrent currentPhase cur log)
    else
      groupGo rest groups currentRound currentPhase (pushCurrent currentPhase cur log)

/-- `groupLogsByRound` from the timeline grouping utility.  The round of a
new night segment is `data.round || currentRound + 1` — JavaScript `||`, so a
payload round of `0` falls back to cursor + 1. -/
def groupLogsByRound (logs : List GameLog) : List RoundGroup :=
  if logs.isEmpty then []
  else groupGo logs [] 0 "day" { round := 0, nightLogs := [], dayLogs := [] }

/-- Concatenation, over segments in output order, of each segment's night
bucket followed by its day bucket. -/
def segFlatten : List RoundGroup → List GameLog
  | [] => []
  | g :: gs => g.nightLogs ++ g.dayLogs ++ segFlatten gs

/-- A phase-change-to-night log entry. -/
def isNightPC (l : GameLog) : Bool :=
  decide (l.type = "game.phase_change") && decide (l.data.phase = some "NIGHT_PHASE")

/-- The externally observable inputs of `GameWebSocket`'s status machine:
`connect()`, the socket's open and close callbacks, the 3-second reconnect
timer firing, and `disconnect()`. -/
inductive TransportAction where
  | connectCall
  | wsOpen
  | wsClose
  | timerFire
  | disconnectCall
deriving DecidableEq

/-- The transport's state: the `manualClose` flag, whether a reconnect timer
is outstanding, and the sequence of statuses passed to `_notifyStatus`. -/
structure TransportState where
  manualClose : Bool
  timerArmed : Bool
  emitted : List String
deriving DecidableEq

/-- `GameWebSocket` transitions.  `connect()` clears `manualClose` and
notifies "connecting"; `onopen` notifies "connected"; `onclose` notifies
"reconnecting" and arms the timer unless the close was manual, in which case
it notifies "disconnected"; the timer firing re-runs `connect()`;
`disconnect()` sets `manualClose` and cancels any pending timer. -/
def tstep (st : TransportState) : TransportAction → TransportState
  | .connectCall =>
    { st with manualClose := false, emitted := st.emitted ++ ["connecting"] }
  | .wsOpen =>
    { st with emitted := st.emitted ++ ["connected"] }
  | .wsClose =>
    if st.manualClose then { st with emitted := st.emitted ++ ["disconnected"] }
    else { st with timerArmed := true, emitted := st.emitted ++ ["reconnecting"] }
  | .timerFire =>
    if st.timerArmed then
      { st with timerArmed := false, manualClose := false
              , emitted := st.emitted ++ ["connecting"] }
    else st
  | .disconnectCall =>
    { st with manualClose := true, timerArmed := false }

/-- Run the transport machine over a sequence of actions. -/
def trun (st : TransportState) : List TransportAction → TransportState
  | [] => st
  | a :: rest => trun (tstep st a) rest

/-- A freshly constructed `GameWebSocket`. -/
def transportInit : TransportState :=
  { manualClose := false, timerArmed := false, emitted := [] }

/-- Number of roster entries whose `is_sheriff` flag is set. -/
def countSheriff (ps : List (String × PlayerInfo)) : Nat :=
  (ps.filter (fun kp => kp.2.is_sheriff)).length

/-! ## Helper lemmas -/

lemma mem_jsSetDedup (x : Nat) : ∀ l : List Nat, x ∈ jsSetDedup l ↔ x ∈ l := by
  intro l
  induction l with
  | nil => simp [jsSetDedup]
  | cons a as ih =>
    by_cases hx : x = a
    · subst hx; simp [jsSetDedup]
    · simp [jsSetDedup, List.mem_filter, hx, ih]

lemma sheriffRegisterStep_shape (d : EventData) (s : GameUIState) :
    ∃ tp, sheriffRegisterStep d s = { s with thinkingPlayers := tp } := by
  unfold sheriffRegisterStep
  split
  · cases d.player_id <;> exact ⟨_, rfl⟩
  · exact ⟨s.thinkingPlayers, rfl⟩

lemma sheriffVoteStep_shape (d : EventData) (s : GameUIState) :
    ∃ tp, sheriffVoteStep d s = { s with thinkingPlayers := tp } := by
  unfold sheriffVoteStep
  split
  · cases d.voter_id <;> exact ⟨_, rfl⟩
  · exact ⟨s.thinkingPlayers, rfl⟩

lemma sheriffElectedStep_shape (d : EventData) (s : GameUIState) :
    ∃ pl sh, sheriffElectedStep d s = { s with players := pl, sheriff := sh } := by
  unfold sheriffElectedStep
  split
  · cases d.sheriff_id <;> exact ⟨_, _, rfl⟩
  · exact ⟨s.players, s.sheriff, rfl⟩

lemma sheriffTransferStep_shape (d : EventData) (s : GameUIState) :
    ∃ pl sh, sheriffTransferStep d s = { s with players := pl, sheriff := sh } := by
  unfold sheriffTransferStep
  split
  · cases d.toId <;> exact ⟨_, _, rfl⟩
  · exact ⟨s.players, s.sheriff, rfl⟩

lemma sheriffDestroyStep_shape (d : EventData) (s : GameUIState) :
    ∃ pl sh, sheriffDestroyStep d s = { s with players := pl, sheriff := sh } := by
  unfold sheriffDestroyStep
  split
  · exact ⟨_, _, rfl⟩
  · exact ⟨s.players, s.sheriff, rfl⟩

/-- The sheriff_election handler only ever touches `thinkingPlayers`,
`players` and `sheriff`. -/
lemma applySheriffElection_shape (d : EventData) (s : GameUIState) :
    ∃ tp pl sh, applySheriffElection d s =
      { s with thinkingPlayers := tp, players := pl, sheriff := sh } := by
  unfold applySheriffElection
  obtain ⟨t1, h1⟩ := sheriffRegisterStep_shape d s
  rw [h1]
  obtain ⟨t2, h2⟩ := sheriffVoteStep_shape d { s with thinkingPlayers := t1 }
  rw [h2]
  obtain ⟨p3, s3, h3⟩ := sheriffElectedStep_shape d { s with thinkingPlayers := t2 }
  rw [h3]
  obtain ⟨p4, s4, h4⟩ := sheriffTransferStep_shape d
    { s with thinkingPlayers := t2, players := p3, sheriff := s3 }
  rw [h4]
  obtain ⟨p5, s5, h5⟩ := sheriffDestroyStep_shape d
    { s with thinkingPlayers := t2, players := p4, sheriff := s4 }
  rw [h5]
  exact ⟨t2, p5, s5, rfl⟩

/-- The death handler only ever touches `players` and `thinkingPlayers`. -/
lemma deathStep_shape (d : EventData) (s : GameUIState) :
    ∃ pl tp, deathStep d s = { s with players := pl, thinkingPlayers := tp } := by
  unfold deathStep
  split
  · exact ⟨s.players, s.thinkingPlayers, rfl⟩
  · split
    · exact ⟨s.players, s.thinkingPlayers, rfl⟩
    · exact ⟨_, _, rfl⟩

/-- No branch of the typed switch ever writes `logs`. -/
lemma applyTyped_logs (e : GameEvent) (s : GameUIState) :
    (applyTyped e s).logs = s.logs := by
  unfold applyTyped
  split
  · rfl
  split
  · rfl
  split
  · rfl
  split
  · rfl
  split
  · rfl
  split
  · rfl
  split
  · obtain ⟨pl, tp, hs⟩ := deathStep_shape e.data s
    rw [hs]
  split
  · rfl
  split
  · rfl
  split
  · obtain ⟨tp, pl, sh, hs⟩ := applySheriffElection_shape e.data s
    rw [hs]
  · rfl

/-- Only the phase_change branch writes `round`. -/
lemma applyTyped_round (e : GameEvent) (s : GameUIState)
    (h : e.type ≠ "game.phase_change") : (applyTyped e s).round = s.round := by
  unfold applyTyped
  rw [if_neg h]
  split
  · rfl
  split
  · rfl
  split
  · rfl
  split
  · rfl
  split
  · rfl
  split
  · obtain ⟨pl, tp, hs⟩ := deathStep_shape e.data s
    rw [hs]
  split
  · rfl
  split
  · rfl
  split
  · obtain ⟨tp, pl, sh, hs⟩ := applySheriffElection_shape e.data s
    rw [hs]
  · rfl

lemma applyEvent_ui_logs (rs : ReducerState) (e : GameEvent) (t : Nat) :
    (applyEvent rs e t).ui.logs =
      rs.ui.logs ++ [{ id := rs.nextLogId + 1, type := e.type
                     , data := e.data, timestamp := t }] := by
  show (applyTyped e (addLog rs e.type e.data t).ui).logs = _
  rw [applyTyped_logs]
  rfl

lemma applyEvent_nextLogId (rs : ReducerState) (e : GameEvent) (t : Nat) :
    (applyEvent rs e t).nextLogId = rs.nextLogId + 1 := rfl

lemma applyEvent_thinkingPlayers_of_type (rs : ReducerState) (e : GameEvent) (t : Nat) :
    (applyEvent rs e t).ui.thinkingPlayers = (applyTyped e (addLog rs e.type e.data t).ui).thinkingPlayers := rfl

/-- Branch equation: the `game.phase_change` case of the switch. -/
lemma applyTyped_phase_change (e : GameEvent) (s : GameUIState)
    (h : e.type = "game.phase_change") :
    applyTyped e s =
      { s with phase := e.data.phase
             , round := jsOrNat e.data.round s.round
             , nightActions := if e.data.phase = some "NIGHT_PHASE" then [] else s.nightActions
             , thinkingPlayers := [] } := by
  unfold applyTyped
  rw [if_pos h]

/-- Branch equation: the `game.ai_thinking` case of the switch. -/
lemma applyTyped_ai_thinking (e : GameEvent) (s : GameUIState)
    (h : e.type = "game.ai_thinking") :
    applyTyped e s =
      { s with thinkingPlayers :=
          if isSequentialThinking e.data.phase then aiThinkingIds e.data
          else jsSetDedup (s.thinkingPlayers ++ aiThinkingIds e.data) } := by
  unfold applyTyped
  rw [h]
  simp only [String.reduceEq, reduceIte]

/-- Branch equation: the `game.death` case of the switch. -/
lemma applyTyped_death (e : GameEvent) (s : GameUIState)
    (h : e.type = "game.death") :
    applyTyped e s = deathStep e.data s := by
  unfold applyTyped
  rw [h]
  simp only [String.reduceEq, reduceIte]

/-- Branch equation: the `game.sheriff_election` case of the switch. -/
lemma applyTyped_sheriff_election (e : GameEvent) (s : GameUIState)
    (h : e.type = "game.sheriff_election") :
    applyTyped e s = applySheriffElection e.data s := by
  unfold applyTyped
  rw [h]
  simp only [String.reduceEq, reduceIte]

/-- An event type with no case in the switch leaves the state untouched. -/
lemma applyTyped_unhandled (e : GameEvent) (s : GameUIState)
    (h : e.type ∉ handledTypes) : applyTyped e s = s := by
  simp only [handledTypes, List.mem_cons, List.not_mem_nil, or_false, not_or] at h
  obtain ⟨h1, h2, h3, h4, h5, h6, h7, h8, h9, h10⟩ := h
  unfold applyTyped
  rw [if_neg h1, if_neg h2, if_neg h3, if_neg h4, if_neg h5, if_neg h6,
      if_neg h7, if_neg h8, if_neg h9, if_neg h10]

/-! ## Claim theorems -/

/-- C9: applying any `phase_change` event — whatever phase value its payload
carries (night, day, game end, or anything else) — leaves the pending set
`thinkingPlayers` empty; the reset is unconditional, not night-only. -/
theorem phase_change_clears_thinking (rs : ReducerState) (e : GameEvent) (t : Nat)
    (h : e.type = "game.phase_change") :
    (applyEvent rs e t).ui.thinkingPlayers = [] := by
  show (applyTyped e (addLog rs e.type e.data t).ui).thinkingPlayers = []
  rw [applyTyped_phase_change e _ h]

/-- C9 witness: a phase change to day, from a state with pending actors. -/
theorem phase_change_clears_thinking_witness :
    (applyEvent
      { ui := { initialUIState with thinkingPlayers := [4, 8] }, nextLogId := 0 }
      { type := "game.phase_change", data := { phase := some "DAY_PHASE", round := some 1 } }
      0).ui.thinkingPlayers = [] :=
  phase_change_clears_thinking _ _ 0 rfl

/-- C1: an `ai_thinking` event whose phase tag is one of the sequential
phases replaces the pending set with exactly the event's listed actors; an
`ai_thinking` event with any other phase tag yields the union (as sets) of
the previous pending set and the event's listed actors. -/
theorem ai_thinking_sequential_replaces_parallel_unions
    (rs : ReducerState) (e : GameEvent) (t : Nat)
    (h : e.type = "game.ai_thinking") :
    (isSequentialThinking e.data.phase = true →
       (applyEvent rs e t).ui.thinkingPlayers = aiThinkingIds e.data) ∧
    (isSequentialThinking e.data.phase = false →
       ∀ x, x ∈ (applyEvent rs e t).ui.thinkingPlayers ↔
            x ∈ rs.ui.thinkingPlayers ∨ x ∈ aiThinkingIds e.data) := by
  have hb : (applyEvent rs e t).ui.thinkingPlayers =
      (applyTyped e (addLog rs e.type e.data t).ui).thinkingPlayers := rfl
  rw [hb, applyTyped_ai_thinking e _ h]
  constructor
  · intro hseq
    simp [hseq]
  · intro hseq x
    simp [hseq, mem_jsSetDedup, List.mem_append]
    show x ∈ rs.ui.thinkingPlayers ∨ _ ↔ _
    exact Iff.rfl

/-- C1 witness: sequential vote events for actor 3 then actor 5 leave
pending = {5}; parallel wolf events for {2} then {9} leave pending = {2, 9}. -/
theorem ai_thinking_sequential_replaces_parallel_unions_witness :
    (applyEvent
      (applyEvent initialReducerState
        { type := "game.ai_thinking", data := { phase := some "vote", player_id := some 3 } } 0)
      { type := "game.ai_thinking", data := { phase := some "vote", player_id := some 5 } } 1
      ).ui.thinkingPlayers = [5] ∧
    (∀ x, x ∈ (applyEvent
      (applyEvent initialReducerState
        { type := "game.ai_thinking", data := { phase := some "wolf", player_ids := some [2] } } 0)
      { type := "game.ai_thinking", data := { phase := some "wolf", player_ids := some [9] } } 1
      ).ui.thinkingPlayers ↔ x = 2 ∨ x = 9) := by
  constructor
  · exact (ai_thinking_sequential_replaces_parallel_unions _ _ 1 rfl).1 rfl
  · intro x
    rw [(ai_thinking_sequential_replaces_parallel_unions
          (applyEvent initialReducerState
            { type := "game.ai_thinking", data := { phase := some "wolf", player_ids := some [2] } } 0)
          { type := "game.ai_thinking", data := { phase := some "wolf", player_ids := some [9] } }
          1 rfl).2 rfl x]
    have h2 : (applyEvent initialReducerState
        { type := "game.ai_thinking", data := { phase := some "wolf", player_ids := some [2] } }
        0).ui.thinkingPlayers = [2] := rfl
    rw [h2]
    simp [aiThinkingIds]

/-- C3 counterexample: the round field is not monotone.  From the initial
state a `phase_change` with payload round 5 sets round = 5, and a subsequent
`phase_change` carrying payload round 2 sets round = 2 < 5: an event can
make `round` smaller. -/
theorem round_decreases_on_stale_phase_change :
    (applyEvent initialReducerState
      { type := "game.phase_change"
      , data := { phase := some "NIGHT_PHASE", round := some 5 } } 0).ui.round = 5 ∧
    (applyEvent
      (applyEvent initialReducerState
        { type := "game.phase_change"
        , data := { phase := some "NIGHT_PHASE", round := some 5 } } 0)
      { type := "game.phase_change"
      , data := { phase := some "DAY_PHASE", round := some 2 } } 1).ui.round = 2 ∧
    2 < 5 := by
  refine ⟨rfl, rfl, by decide⟩

/-- C3 amended: an event never decreases `round` unless it is a
`phase_change` whose payload carries a nonzero round strictly below the
current round, in which case `round` becomes exactly that payload value
(`round: event.data.round || prev.round` adopts any nonzero payload round). -/
theorem round_monotone_unless_smaller_payload
    (rs : ReducerState) (e : GameEvent) (t : Nat) :
    rs.ui.round ≤ (applyEvent rs e t).ui.round ∨
    (e.type = "game.phase_change" ∧ ∃ r, e.data.round = some r ∧ r ≠ 0 ∧
       r < rs.ui.round ∧ (applyEvent rs e t).ui.round = r) := by
  have hb : (applyEvent rs e t).ui.round =
      (applyTyped e (addLog rs e.type e.data t).ui).round := rfl
  by_cases h : e.type = "game.phase_change"
  · have hr : (applyEvent rs e t).ui.round = jsOrNat e.data.round rs.ui.round := by
      rw [hb, applyTyped_phase_change e _ h]
      rfl
    obtain hround | ⟨r, hround⟩ :
        e.data.round = none ∨ ∃ r, e.data.round = some r := by
      cases e.data.round with
      | none => exact Or.inl rfl
      | some r => exact Or.inr ⟨r, rfl⟩
    · left
      rw [hr, hround, jsOrNat]
    · by_cases hz : r = 0
      · left
        rw [hr, hround]
        simp [jsOrNat, hz]
      · by_cases hlt : r < rs.ui.round
        · right
          exact ⟨h, r, hround, hz, hlt, by rw [hr, hround]; simp [jsOrNat, hz]⟩
        · left
          rw [hr, hround]
          simp only [jsOrNat, if_neg hz]
          omega
  · left
    rw [hb, applyTyped_round e _ h]
    exact le_refl _

/-- C6: applying an event whose type has no case in the reducer's switch
(any unrecognized type string) changes nothing but the event log: phase,
round, winner, paused, pending set, roster, sheriff holder and the
night-action list are all untouched. -/
theorem unknown_event_type_frame (rs : ReducerState) (e : GameEvent) (t : Nat)
    (h : e.type ∉ handledTypes) :
    (applyEvent rs e t).ui.phase = rs.ui.phase ∧
    (applyEvent rs e t).ui.round = rs.ui.round ∧
    (applyEvent rs e t).ui.winner = rs.ui.winner ∧
    (applyEvent rs e t).ui.paused = rs.ui.paused ∧
    (applyEvent rs e t).ui.thinkingPlayers = rs.ui.thinkingPlayers ∧
    (applyEvent rs e t).ui.players = rs.ui.players ∧
    (applyEvent rs e t).ui.sheriff = rs.ui.sheriff ∧
    (applyEvent rs e t).ui.nightActions = rs.ui.nightActions := by
  have hb : (applyEvent rs e t).ui = applyTyped e (addLog rs e.type e.data t).ui := rfl
  rw [hb, applyTyped_unhandled e _ h]
  exact ⟨rfl, rfl, rfl, rfl, rfl, rfl, rfl, rfl⟩

/-- C6 witness: a future/unknown event type mutates nothing but the log. -/
theorem unknown_event_type_frame_witness :
    ("game.sparkle" ∉ handledTypes) ∧
    (applyEvent initialReducerState
      { type := "game.sparkle", data := { phase := some "NIGHT_PHASE", round := some 9 } }
      3).ui.round = initialUIState.round :=
  ⟨by decide,
   (unknown_event_type_frame initialReducerState
     { type := "game.sparkle", data := { phase := some "NIGHT_PHASE", round := some 9 } }
     3 (by decide)).2.1⟩

lemma lookupPlayer_markDead_self (ps : List (String × PlayerInfo)) (k : String) :
    lookupPlayer (markDead ps k) k =
      (lookupPlayer ps k).map (fun p => { p with is_alive := false }) := by
  induction ps with
  | nil => rfl
  | cons a rest ih =>
    obtain ⟨ak, ap⟩ := a
    by_cases hk : ak = k
    · subst hk
      simp only [markDead, List.map_cons]
      simp [lookupPlayer]
    · simp only [markDead, List.map_cons] at ih ⊢
      rw [if_neg hk]
      simp only [lookupPlayer, if_neg hk]
      exact ih

/-- C7: if actor 7 is in the roster, a `game.death` event for actor 7
removes 7 from the pending set and flips its alive flag to false. -/
theorem death_event_clears_pending_and_alive
    (rs : ReducerState) (e : GameEvent) (t : Nat) (p : PlayerInfo)
    (hty : e.type = "game.death")
    (hid : e.data.player_id = some 7)
    (hp : lookupPlayer rs.ui.players "7" = some p)
    (hpend : 7 ∈ rs.ui.thinkingPlayers) :
    7 ∉ (applyEvent rs e t).ui.thinkingPlayers ∧
    lookupPlayer (applyEvent rs e t).ui.players "7" =
      some { p with is_alive := false } := by
  have hrepr : Nat.repr 7 = "7" := rfl
  have hb : (applyEvent rs e t).ui = applyTyped e (addLog rs e.type e.data t).ui := rfl
  have hd : applyTyped e (addLog rs e.type e.data t).ui =
      deathStep e.data (addLog rs e.type e.data t).ui :=
    applyTyped_death e _ hty
  have hlook : lookupPlayer (addLog rs e.type e.data t).ui.players "7" = some p := hp
  have hstep : deathStep e.data (addLog rs e.type e.data t).ui =
      { (addLog rs e.type e.data t).ui with
          players := markDead (addLog rs e.type e.data t).ui.players "7"
        , thinkingPlayers :=
            (addLog rs e.type e.data t).ui.thinkingPlayers.filter
              (fun id => decide (id ≠ 7)) } := by
    unfold deathStep
    rw [hid]
    simp only [hrepr, hlook]
  rw [hb, hd, hstep]
  constructor
  · simp [List.mem_filter]
  · show lookupPlayer (markDead rs.ui.players "7") "7" = _
    rw [lookupPlayer_markDead_self, hp]
    rfl

/-- Concrete roster used to exercise the death handler: actor 7 is a hunter
who is alive and currently pending. -/
def hunterSeven : PlayerInfo :=
  { role := "hunter", faction := "good", is_alive := true
  , is_sheriff := false, llm_config_id := none }

def deathWitnessState : ReducerState :=
  { ui := { initialUIState with
              players :=
                [("7", hunterSeven),
                 ("2", { role := "werewolf", faction := "wolf", is_alive := true
                       , is_sheriff := false, llm_config_id := none })]
            , thinkingPlayers := [7, 2] }
  , nextLogId := 0 }

/-- C7 witness: a two-player roster with actor 7 pending via hunter_shoot. -/
theorem death_event_clears_pending_and_alive_witness :
    (lookupPlayer deathWitnessState.ui.players "7" = some hunterSeven) ∧
    (7 ∈ deathWitnessState.ui.thinkingPlayers) ∧
    (7 ∉ (applyEvent deathWitnessState
        { type := "game.death", data := { player_id := some 7, cause := some "shot" } }
        0).ui.thinkingPlayers) ∧
    (lookupPlayer (applyEvent deathWitnessState
        { type := "game.death", data := { player_id := some 7, cause := some "shot" } }
        0).ui.players "7" = some { hunterSeven with is_alive := false }) := by
  have h := death_event_clears_pending_and_alive deathWitnessState
    { type := "game.death", data := { player_id := some 7, cause := some "shot" } }
    0 hunterSeven rfl rfl (by decide) (by decide)
  exact ⟨by decide, by decide, h.1, h.2⟩

/-- Once `disconnect()` has run (manual flag set, timer cancelled), no later
environment activity — socket opens/closes, timer callbacks, further
`disconnect()` calls — ever notifies "connecting" again or re-arms the
reconnect timer; only a fresh `connect()` call could. -/
lemma trun_no_reconnect_after_manual (acts : List TransportAction) :
    ∀ st : TransportState, st.manualClose = true → st.timerArmed = false →
    TransportAction.connectCall ∉ acts →
    (trun st acts).manualClose = true ∧ (trun st acts).timerArmed = false ∧
    ∃ ext, (trun st acts).emitted = st.emitted ++ ext ∧ "connecting" ∉ ext := by
  induction acts with
  | nil =>
    intro st hm ht _
    exact ⟨hm, ht, [], by simp [trun], by simp⟩
  | cons a rest ih =>
    intro st hm ht hno
    have hnr : TransportAction.connectCall ∉ rest := by
      intro hmem
      exact hno (List.mem_cons_of_mem _ hmem)
    have hna : a ≠ TransportAction.connectCall := by
      intro hEq
      exact hno (by rw [hEq]; exact List.mem_cons_self _ _)
    have hstep : trun st (a :: rest) = trun (tstep st a) rest := rfl
    cases a with
    | connectCall => exact absurd rfl hna
    | wsOpen =>
      have h := ih (tstep st .wsOpen) (by simp [tstep, hm]) (by simp [tstep, ht]) hnr
      obtain ⟨h1, h2, ext, he, hc⟩ := h
      refine ⟨h1, h2, "connected" :: ext, ?_, ?_⟩
      · rw [hstep, he]
        simp [tstep]
      · simp [hc]
    | wsClose =>
      have hts : tstep st .wsClose = { st with emitted := st.emitted ++ ["disconnected"] } := by
        simp [tstep, hm]
      have h := ih (tstep st .wsClose) (by rw [hts]; exact hm) (by rw [hts]; exact ht) hnr
      obtain ⟨h1, h2, ext, he, hc⟩ := h
      refine ⟨h1, h2, "disconnected" :: ext, ?_, ?_⟩
      · rw [hstep, he, hts]
        simp
      · simp [hc]
    | timerFire =>
      have hts : tstep st .timerFire = st := by
        simp [tstep, ht]
      rw [hstep, hts]
      exact ih st hm ht hnr
    | disconnectCall =>
      have h := ih (tstep st .disconnectCall) (by simp [tstep]) (by simp [tstep]) hnr
      obtain ⟨h1, h2, ext, he, hc⟩ := h
      refine ⟨h1, h2, ext, ?_, hc⟩
      · rw [hstep, he]
        simp [tstep]

/-- C8: after reaching CONNECTED, an unexpected close notifies "reconnecting"
and the retry timer's firing re-enters "connecting"; a manual `close()`
instead yields the clean "disconnected" status at the socket's close
callback, and afterwards no sequence of environment actions (anything except
a new `connect()` call) ever produces another "connecting" notification. -/
theorem transport_reconnect_and_manual_close :
    (trun transportInit
        [.connectCall, .wsOpen, .wsClose, .timerFire]).emitted =
      ["connecting", "connected", "reconnecting", "connecting"] ∧
    (trun transportInit
        [.connectCall, .wsOpen, .disconnectCall, .wsClose]).emitted =
      ["connecting", "connected", "disconnected"] ∧
    (∀ acts : List TransportAction, TransportAction.connectCall ∉ acts →
      ∃ ext,
        (trun (trun transportInit [.connectCall, .wsOpen, .disconnectCall, .wsClose])
            acts).emitted =
          ["connecting", "connected", "disconnected"] ++ ext ∧
        "connecting" ∉ ext) := by
  refine ⟨by decide, by decide, ?_⟩
  intro acts hno
  obtain ⟨_, _, ext, he, hc⟩ :=
    trun_no_reconnect_after_manual acts
      (trun transportInit [.connectCall, .wsOpen, .disconnectCall, .wsClose])
      rfl rfl hno
  refine ⟨ext, ?_, hc⟩
  rw [he]
  rfl

/-- C8 witness: after the manual-close trace, a stray close event and a stray
timer callback add no "connecting" notification. -/
theorem transport_reconnect_and_manual_close_witness :
    (TransportAction.connectCall ∉
        ([.wsClose, .timerFire] : List TransportAction)) ∧
    ∃ ext,
      (trun (trun transportInit [.connectCall, .wsOpen, .disconnectCall, .wsClose])
          [.wsClose, .timerFire]).emitted =
        ["connecting", "connected", "disconnected"] ++ ext ∧
      "connecting" ∉ ext :=
  ⟨by decide,
   transport_reconnect_and_manual_close.2.2 [.wsClose, .timerFire] (by decide)⟩

/-- C5: the event log is append-only.  Applying any sequence of events
appends exactly one entry per event (in arrival order, leaving every
existing entry unchanged and in place), and the locally assigned sequence
ids remain strictly increasing. -/
theorem eventLog_append_only (es : List (GameEvent × Nat)) :
    ∀ rs : ReducerState,
    (∀ l ∈ rs.ui.logs, l.id ≤ rs.nextLogId) →
    List.Chain' (· < ·) (rs.ui.logs.map GameLog.id) →
    (applyEvents rs es).ui.logs = rs.ui.logs ++ expectedLogs rs.nextLogId es ∧
    List.Chain' (· < ·) ((applyEvents rs es).ui.logs.map GameLog.id) := by
  induction es with
  | nil =>
    intro rs _ hchain
    exact ⟨by simp [applyEvents, expectedLogs], hchain⟩
  | cons p rest ih =>
    obtain ⟨e, t⟩ := p
    intro rs hle hchain
    have hlog := applyEvent_ui_logs rs e t
    have hnext := applyEvent_nextLogId rs e t
    have hle' : ∀ l ∈ (applyEvent rs e t).ui.logs, l.id ≤ (applyEvent rs e t).nextLogId := by
      intro l hl
      rw [hlog] at hl
      rw [hnext]
      rcases List.mem_append.mp hl with h | h
      · exact le_trans (hle l h) (Nat.le_succ _)
      · simp only [List.mem_singleton] at h
        subst h
        exact le_refl _
    have hchain' : List.Chain' (· < ·) ((applyEvent rs e t).ui.logs.map GameLog.id) := by
      rw [hlog, List.map_append]
      refine List.Chain'.append hchain (by simp) ?_
      intro x hx y hy
      simp only [List.map_cons, List.map_nil, List.head?_cons, Option.mem_def,
        Option.some.injEq] at hy
      have hxl : x ∈ rs.ui.logs.map GameLog.id := List.mem_of_mem_getLast? hx
      obtain ⟨l, hl, hli⟩ := List.mem_map.mp hxl
      have := hle l hl
      omega
    have h := ih (applyEvent rs e t) hle' hchain'
    have hunf : applyEvents rs ((e, t) :: rest) = applyEvents (applyEvent rs e t) rest := rfl
    rw [hunf]
    refine ⟨?_, h.2⟩
    rw [h.1, hlog, hnext]
    simp [expectedLogs, List.append_assoc]

/-- C5 witness: two arbitrary events from the initial state. -/
theorem eventLog_append_only_witness :
    (∀ l ∈ initialReducerState.ui.logs, l.id ≤ initialReducerState.nextLogId) ∧
    (applyEvents initialReducerState
      [({ type := "game.speech", data := { player_id := some 3 } }, 10),
       ({ type := "game.vote", data := {} }, 11)]).ui.logs =
      [{ id := 1, type := "game.speech", data := { player_id := some 3 }, timestamp := 10 },
       { id := 2, type := "game.vote", data := {}, timestamp := 11 }] := by
  have h := eventLog_append_only
    [({ type := "game.speech", data := { player_id := some 3 } }, 10),
     ({ type := "game.vote", data := {} }, 11)]
    initialReducerState (by simp [initialReducerState, initialUIState]) (by simp [initialReducerState, initialUIState])
  exact ⟨by simp [initialReducerState, initialUIState], by rw [h.1]; rfl⟩

lemma keys_clearSheriffFlags (ps : List (String × PlayerInfo)) :
    (clearSheriffFlags ps).map Prod.fst = ps.map Prod.fst := by
  induction ps with
  | nil => rfl
  | cons a rest ih =>
    simp only [clearSheriffFlags, List.map_cons] at ih ⊢
    rw [ih]

lemma keys_setSheriffFlag (ps : List (String × PlayerInfo)) (k : String) :
    (setSheriffFlag ps k).map Prod.fst = ps.map Prod.fst := by
  induction ps with
  | nil => rfl
  | cons a rest ih =>
    simp only [setSheriffFlag, List.map_cons] at ih ⊢
    by_cases hk : a.1 = k
    · rw [if_pos hk, ih]
    · rw [if_neg hk, ih]

lemma keys_markDead (ps : List (String × PlayerInfo)) (k : String) :
    (markDead ps k).map Prod.fst = ps.map Prod.fst := by
  induction ps with
  | nil => rfl
  | cons a rest ih =>
    simp only [markDead, List.map_cons] at ih ⊢
    by_cases hk : a.1 = k
    · rw [if_pos hk, ih]
    · rw [if_neg hk, ih]

lemma countSheriff_clearSheriffFlags (ps : List (String × PlayerInfo)) :
    countSheriff (clearSheriffFlags ps) = 0 := by
  induction ps with
  | nil => rfl
  | cons a rest ih =>
    simp only [clearSheriffFlags, countSheriff, List.map_cons, List.filter_cons] at ih ⊢
    simpa using ih

lemma setSheriffFlag_of_not_mem (ps : List (String × PlayerInfo)) (k : String)
    (h : k ∉ ps.map Prod.fst) : setSheriffFlag ps k = ps := by
  induction ps with
  | nil => rfl
  | cons a rest ih =>
    simp only [List.map_cons, List.mem_cons, not_or] at h
    simp only [setSheriffFlag, List.map_cons] at ih ⊢
    rw [if_neg (fun hEq => h.1 hEq.symm), ih h.2]

lemma countSheriff_markDead (ps : List (String × PlayerInfo)) (k : String) :
    countSheriff (markDead ps k) = countSheriff ps := by
  induction ps with
  | nil => rfl
  | cons a rest ih =>
    simp only [markDead, countSheriff, List.map_cons, List.filter_cons] at ih ⊢
    by_cases hk : a.1 = k
    · rw [if_pos hk]
      by_cases hs : a.2.is_sheriff
      · simp [hs, ih]
      · simp [hs, ih]
    · rw [if_neg hk]
      by_cases hs : a.2.is_sheriff
      · simp [hs, ih]
      · simp [hs, ih]

lemma countSheriff_set_clear (ps : List (String × PlayerInfo)) (k : String)
    (h : (ps.map Prod.fst).Nodup) :
    countSheriff (setSheriffFlag (clearSheriffFlags ps) k) ≤ 1 := by
  induction ps with
  | nil => exact Nat.zero_le 1
  | cons a rest ih =>
    simp only [List.map_cons, List.nodup_cons] at h
    obtain ⟨ha, hrest⟩ := h
    simp only [clearSheriffFlags, setSheriffFlag, List.map_cons] at ih ⊢
    by_cases hk : a.1 = k
    · rw [if_pos hk]
      have hnot : k ∉ (clearSheriffFlags rest).map Prod.fst := by
        rw [keys_clearSheriffFlags, ← hk]
        exact ha
      have hrw : setSheriffFlag (clearSheriffFlags rest) k = clearSheriffFlags rest :=
        setSheriffFlag_of_not_mem _ _ hnot
      simp only [setSheriffFlag, clearSheriffFlags] at hrw
      rw [hrw]
      simp only [countSheriff, List.filter_cons]
      have h0 : countSheriff (clearSheriffFlags rest) = 0 := countSheriff_clearSheriffFlags rest
      simp only [countSheriff, clearSheriffFlags] at h0
      simp [h0]
    · rw [if_neg hk]
      simp only [countSheriff, List.filter_cons]
      have := ih hrest
      simp only [countSheriff] at this
      simpa using this

lemma sheriffRegisterStep_players (d : EventData) (s : GameUIState) :
    (sheriffRegisterStep d s).players = s.players := by
  obtain ⟨tp, h⟩ := sheriffRegisterStep_shape d s
  rw [h]

lemma sheriffVoteStep_players (d : EventData) (s : GameUIState) :
    (sheriffVoteStep d s).players = s.players := by
  obtain ⟨tp, h⟩ := sheriffVoteStep_shape d s
  rw [h]

lemma sheriffElectedStep_inv (d : EventData) (s : GameUIState)
    (hnd : (s.players.map Prod.fst).Nodup) (hc : countSheriff s.players ≤ 1) :
    ((sheriffElectedStep d s).players.map Prod.fst).Nodup ∧
    countSheriff (sheriffElectedStep d s).players ≤ 1 := by
  unfold sheriffElectedStep
  split
  · cases d.sheriff_id with
    | none => exact ⟨hnd, hc⟩
    | some sid =>
      constructor
      · show ((setSheriffFlag (clearSheriffFlags s.players) (Nat.repr sid)).map Prod.fst).Nodup
        rw [keys_setSheriffFlag, keys_clearSheriffFlags]
        exact hnd
      · exact countSheriff_set_clear _ _ hnd
  · exact ⟨hnd, hc⟩

lemma sheriffTransferStep_inv (d : EventData) (s : GameUIState)
    (hnd : (s.players.map Prod.fst).Nodup) (hc : countSheriff s.players ≤ 1) :
    ((sheriffTransferStep d s).players.map Prod.fst).Nodup ∧
    countSheriff (sheriffTransferStep d s).players ≤ 1 := by
  unfold sheriffTransferStep
  split
  · cases d.toId with
    | none => exact ⟨hnd, hc⟩
    | some tid =>
      constructor
      · show ((setSheriffFlag (clearSheriffFlags s.players) (Nat.repr tid)).map Prod.fst).Nodup
        rw [keys_setSheriffFlag, keys_clearSheriffFlags]
        exact hnd
      · exact countSheriff_set_clear _ _ hnd
  · exact ⟨hnd, hc⟩

lemma sheriffDestroyStep_inv (d : EventData) (s : GameUIState)
    (hnd : (s.players.map Prod.fst).Nodup) (hc : countSheriff s.players ≤ 1) :
    ((sheriffDestroyStep d s).players.map Prod.fst).Nodup ∧
    countSheriff (sheriffDestroyStep d s).players ≤ 1 := by
  unfold sheriffDestroyStep
  split
  · constructor
    · show ((clearSheriffFlags s.players).map Prod.fst).Nodup
      rw [keys_clearSheriffFlags]
      exact hnd
    · show countSheriff (clearSheriffFlags s.players) ≤ 1
      rw [countSheriff_clearSheriffFlags]
      exact Nat.zero_le 1
  · exact ⟨hnd, hc⟩

lemma applySheriffElection_inv (d : EventData) (s : GameUIState)
    (hnd : (s.players.map Prod.fst).Nodup) (hc : countSheriff s.players ≤ 1) :
    ((applySheriffElection d s).players.map Prod.fst).Nodup ∧
    countSheriff (applySheriffElection d s).players ≤ 1 := by
  unfold applySheriffElection
  have h1 := sheriffRegisterStep_players d s
  have hnd1 : (((sheriffRegisterStep d s).players.map Prod.fst)).Nodup := by rw [h1]; exact hnd
  have hc1 : countSheriff (sheriffRegisterStep d s).players ≤ 1 := by rw [h1]; exact hc
  have h2 := sheriffVoteStep_players d (sheriffRegisterStep d s)
  have hnd2 : (((sheriffVoteStep d (sheriffRegisterStep d s)).players.map Prod.fst)).Nodup := by
    rw [h2]; exact hnd1
  have hc2 : countSheriff (sheriffVoteStep d (sheriffRegisterStep d s)).players ≤ 1 := by
    rw [h2]; exact hc1
  have h3 := sheriffElectedStep_inv d _ hnd2 hc2
  have h4 := sheriffTransferStep_inv d _ h3.1 h3.2
  exact sheriffDestroyStep_inv d _ h4.1 h4.2

lemma deathStep_inv (d : EventData) (s : GameUIState)
    (hnd : (s.players.map Prod.fst).Nodup) (hc : countSheriff s.players ≤ 1) :
    ((deathStep d s).players.map Prod.fst).Nodup ∧
    countSheriff (deathStep d s).players ≤ 1 := by
  unfold deathStep
  split
  · exact ⟨hnd, hc⟩
  · split
    · exact ⟨hnd, hc⟩
    · constructor
      · show ((markDead s.players _).map Prod.fst).Nodup
        rw [keys_markDead]
        exact hnd
      · show countSheriff (markDead s.players _) ≤ 1
        rw [countSheriff_markDead]
        exact hc

lemma applyTyped_players_inv (e : GameEvent) (s : GameUIState)
    (hnd : (s.players.map Prod.fst).Nodup) (hc : countSheriff s.players ≤ 1) :
    ((applyTyped e s).players.map Prod.fst).Nodup ∧
    countSheriff (applyTyped e s).players ≤ 1 := by
  unfold applyTyped
  split
  · exact ⟨hnd, hc⟩
  split
  · exact ⟨hnd, hc⟩
  split
  · exact ⟨hnd, hc⟩
  split
  · exact ⟨hnd, hc⟩
  split
  · exact ⟨hnd, hc⟩
  split
  · exact ⟨hnd, hc⟩
  split
  · exact deathStep_inv e.data s hnd hc
  split
  · exact ⟨hnd, hc⟩
  split
  · exact ⟨hnd, hc⟩
  split
  · exact applySheriffElection_inv e.data s hnd hc
  · exact ⟨hnd, hc⟩

/-- C2: starting from any snapshot whose roster keys are distinct and in
which at most one actor holds the sheriff badge, after any sequence of
events — including sheriff elections, transfers and destroys naming
identifiers absent from the roster — the number of actors with
`is_sheriff = true` is still 0 or 1, never more. -/
theorem sheriff_holder_at_most_one (es : List (GameEvent × Nat)) :
    ∀ rs : ReducerState,
    (rs.ui.players.map Prod.fst).Nodup →
    countSheriff rs.ui.players ≤ 1 →
    countSheriff (applyEvents rs es).ui.players ≤ 1 := by
  induction es with
  | nil =>
    intro rs _ hc
    exact hc
  | cons p rest ih =>
    obtain ⟨e, t⟩ := p
    intro rs hnd hc
    have hb : (applyEvent rs e t).ui.players =
        (applyTyped e (addLog rs e.type e.data t).ui).players := rfl
    have hstep := applyTyped_players_inv e (addLog rs e.type e.data t).ui hnd hc
    have hunf : applyEvents rs ((e, t) :: rest) = applyEvents (applyEvent rs e t) rest := rfl
    rw [hunf]
    exact ih (applyEvent rs e t) (by rw [hb]; exact hstep.1) (by rw [hb]; exact hstep.2)

/-- C2 witness: elect actor 7, transfer to an identifier absent from the
roster, then destroy — the holder count never exceeds one. -/
theorem sheriff_holder_at_most_one_witness :
    ((deathWitnessState.ui.players.map Prod.fst).Nodup) ∧
    (countSheriff deathWitnessState.ui.players ≤ 1) ∧
    countSheriff (applyEvents deathWitnessState
      [({ type := "game.sheriff_election"
        , data := { phase := some "elected", sheriff_id := some 7 } }, 0),
       ({ type := "game.sheriff_election"
        , data := { phase := some "badge_transferred", toId := some 99 } }, 1),
       ({ type := "game.sheriff_election"
        , data := { phase := some "badge_destroyed" } }, 2)]).ui.players ≤ 1 :=
  ⟨by decide, by decide,
   sheriff_holder_at_most_one _ deathWitnessState (by decide) (by decide)⟩

lemma groupGo_cons_night (log : GameLog) (rest : List GameLog)
    (groups : List RoundGroup) (cr : Nat) (cp : String) (cur : RoundGroup)
    (hpc : log.type = "game.phase_change")
    (hnight : log.data.phase = some "NIGHT_PHASE") :
    groupGo (log :: rest) groups cr cp cur =
      groupGo rest (if roundGroupNonEmpty cur then groups ++ [cur] else groups)
        (jsOrNat log.data.round (cr + 1)) "night"
        { round := jsOrNat log.data.round (cr + 1), nightLogs := [log], dayLogs := [] } := by
  simp only [groupGo]
  rw [if_pos hpc, if_pos hnight]

lemma groupGo_cons_day (log : GameLog) (rest : List GameLog)
    (groups : List RoundGroup) (cr : Nat) (cp : String) (cur : RoundGroup)
    (hpc : log.type = "game.phase_change")
    (hnotnight : log.data.phase ≠ some "NIGHT_PHASE")
    (hday : log.data.phase = some "DAY_PHASE") :
    groupGo (log :: rest) groups cr cp cur =
      groupGo rest groups cr "day" (pushDay cur log) := by
  simp only [groupGo]
  rw [if_pos hpc, if_neg hnotnight, if_pos hday]

lemma groupGo_cons_otherpc (log : GameLog) (rest : List GameLog)
    (groups : List RoundGroup) (cr : Nat) (cp : String) (cur : RoundGroup)
    (hpc : log.type = "game.phase_change")
    (hnotnight : log.data.phase ≠ some "NIGHT_PHASE")
    (hnotday : log.data.phase ≠ some "DAY_PHASE") :
    groupGo (log :: rest) groups cr cp cur =
      groupGo rest groups cr cp (pushCurrent cp cur log) := by
  simp only [groupGo]
  rw [if_pos hpc, if_neg hnotnight, if_neg hnotday]

lemma groupGo_cons_nonpc (log : GameLog) (rest : List GameLog)
    (groups : List RoundGroup) (cr : Nat) (cp : String) (cur : RoundGroup)
    (hpc : log.type ≠ "game.phase_change") :
    groupGo (log :: rest) groups cr cp cur =
      groupGo rest groups cr cp (pushCurrent cp cur log) := by
  simp only [groupGo]
  rw [if_neg hpc]

lemma groupGo_nil (groups : List RoundGroup) (cr : Nat) (cp : String) (cur : RoundGroup) :
    groupGo [] groups cr cp cur =
      if roundGroupNonEmpty cur then groups ++ [cur] else groups := rfl

lemma pushNight_round (g : RoundGroup) (l : GameLog) : (pushNight g l).round = g.round := rfl

lemma pushDay_round (g : RoundGroup) (l : GameLog) : (pushDay g l).round = g.round := rfl

lemma pushCurrent_round (cp : String) (g : RoundGroup) (l : GameLog) :
    (pushCurrent cp g l).round = g.round := by
  unfold pushCurrent
  split
  · rfl
  · rfl

lemma pushNight_nonEmpty (g : RoundGroup) (l : GameLog) :
    roundGroupNonEmpty (pushNight g l) = true := by
  simp [pushNight, roundGroupNonEmpty]

lemma pushDay_nonEmpty (g : RoundGroup) (l : GameLog) :
    roundGroupNonEmpty (pushDay g l) = true := by
  simp [pushDay, roundGroupNonEmpty]

lemma pushCurrent_nonEmpty (cp : String) (g : RoundGroup) (l : GameLog) :
    roundGroupNonEmpty (pushCurrent cp g l) = true := by
  unfold pushCurrent
  split
  · exact pushNight_nonEmpty g l
  · exact pushDay_nonEmpty g l

lemma roundGroupNonEmpty_false (g : RoundGroup) (h : ¬ roundGroupNonEmpty g = true) :
    g.nightLogs = [] ∧ g.dayLogs = [] := by
  have hb : roundGroupNonEmpty g = false := by
    cases hx : roundGroupNonEmpty g
    · rfl
    · exact absurd hx h
  unfold roundGroupNonEmpty at hb
  simp [List.isEmpty_iff] at hb
  exact hb

lemma segFlatten_append (gs : List RoundGroup) (g : RoundGroup) :
    segFlatten (gs ++ [g]) = segFlatten gs ++ g.nightLogs ++ g.dayLogs := by
  induction gs with
  | nil => simp [segFlatten]
  | cons a as ih =>
    show segFlatten (a :: (as ++ [g])) = _
    simp only [segFlatten]
    rw [ih]
    simp [List.append_assoc]

/-- Loop invariant for the partition property: within a segment the night
bucket only grows while the cursor phase is "night", and once the cursor is
"day" nothing enters the night bucket again, so night-then-day concatenation
reproduces arrival order. -/
lemma groupGo_partition (logs : List GameLog) :
    ∀ (groups : List RoundGroup) (cr : Nat) (cp : String) (cur : RoundGroup),
    (cp = "night" → cur.dayLogs = []) →
    segFlatten (groupGo logs groups cr cp cur) =
      segFlatten groups ++ cur.nightLogs ++ cur.dayLogs ++ logs := by
  induction logs with
  | nil =>
    intro groups cr cp cur _
    rw [groupGo_nil]
    by_cases hne : roundGroupNonEmpty cur = true
    · rw [if_pos hne, segFlatten_append]
      simp [List.append_assoc]
    · obtain ⟨hn, hd⟩ := roundGroupNonEmpty_false cur hne
      rw [if_neg hne, hn, hd]
      simp
  | cons log rest ih =>
    intro groups cr cp cur hinv
    by_cases hpc : log.type = "game.phase_change"
    · by_cases hnight : log.data.phase = some "NIGHT_PHASE"
      · rw [groupGo_cons_night log rest groups cr cp cur hpc hnight]
        rw [ih _ _ _ _ (fun _ => rfl)]
        by_cases hne : roundGroupNonEmpty cur = true
        · rw [if_pos hne, segFlatten_append]
          simp [List.append_assoc]
        · obtain ⟨hn, hd⟩ := roundGroupNonEmpty_false cur hne
          rw [if_neg hne, hn, hd]
          simp
      · by_cases hday : log.data.phase = some "DAY_PHASE"
        · rw [groupGo_cons_day log rest groups cr cp cur hpc hnight hday]
          rw [ih _ _ _ _ (fun h => absurd h (by decide))]
          simp [pushDay, List.append_assoc]
        · rw [groupGo_cons_otherpc log rest groups cr cp cur hpc hnight hday]
          by_cases hcp : cp = "night"
          · have hd0 : cur.dayLogs = [] := hinv hcp
            rw [ih _ _ _ _ (fun h => by rw [pushCurrent, if_pos hcp, pushNight]; exact hd0)]
            rw [pushCurrent, if_pos hcp]
            simp [pushNight, hd0, List.append_assoc]
          · rw [ih _ _ _ _ (fun h => absurd h hcp)]
            rw [pushCurrent, if_neg hcp]
            simp [pushDay, List.append_assoc]
    · rw [groupGo_cons_nonpc log rest groups cr cp cur hpc]
      by_cases hcp : cp = "night"
      · have hd0 : cur.dayLogs = [] := hinv hcp
        rw [ih _ _ _ _ (fun h => by rw [pushCurrent, if_pos hcp, pushNight]; exact hd0)]
        rw [pushCurrent, if_pos hcp]
        simp [pushNight, hd0, List.append_assoc]
      · rw [ih _ _ _ _ (fun h => absurd h hcp)]
        rw [pushCurrent, if_neg hcp]
        simp [pushDay, List.append_assoc]

/-- Every group the loop ever outputs is non-empty: groups are only flushed
under the non-emptiness guard, and the in-progress group is flushed at the
end under the same guard. -/
lemma groupGo_nonEmpty (logs : List GameLog) :
    ∀ (groups : List RoundGroup) (cr : Nat) (cp : String) (cur : RoundGroup),
    (∀ g ∈ groups, roundGroupNonEmpty g = true) →
    ∀ g ∈ groupGo logs groups cr cp cur, roundGroupNonEmpty g = true := by
  induction logs with
  | nil =>
    intro groups cr cp cur hg g hmem
    rw [groupGo_nil] at hmem
    by_cases hne : roundGroupNonEmpty cur = true
    · rw [if_pos hne] at hmem
      rcases List.mem_append.mp hmem with h | h
      · exact hg g h
      · simp only [List.mem_singleton] at h
        subst h
        exact hne
    · rw [if_neg hne] at hmem
      exact hg g hmem
  | cons log rest ih =>
    intro groups cr cp cur hg g hmem
    by_cases hpc : log.type = "game.phase_change"
    · by_cases hnight : log.data.phase = some "NIGHT_PHASE"
      · rw [groupGo_cons_night log rest groups cr cp cur hpc hnight] at hmem
        refine ih _ _ _ _ ?_ g hmem
        intro g' hmem'
        by_cases hne : roundGroupNonEmpty cur = true
        · rw [if_pos hne] at hmem'
          rcases List.mem_append.mp hmem' with h | h
          · exact hg g' h
          · simp only [List.mem_singleton] at h
            subst h
            exact hne
        · rw [if_neg hne] at hmem'
          exact hg g' hmem'
      · by_cases hday : log.data.phase = some "DAY_PHASE"
        · rw [groupGo_cons_day log rest groups cr cp cur hpc hnight hday] at hmem
          exact ih _ _ _ _ hg g hmem
        · rw [groupGo_cons_otherpc log rest groups cr cp cur hpc hnight hday] at hmem
          exact ih _ _ _ _ hg g hmem
    · rw [groupGo_cons_nonpc log rest groups cr cp cur hpc] at hmem
      exact ih _ _ _ _ hg g hmem

/-- C10: segmentation is a partition of its input — concatenating each
segment's night bucket followed by its day bucket, over segments in output
order, reproduces the event log exactly, and every returned segment holds at
least one event. -/
theorem segmentation_partitions_log (logs : List GameLog) :
    segFlatten (groupLogsByRound logs) = logs ∧
    ∀ g ∈ groupLogsByRound logs, roundGroupNonEmpty g = true := by
  cases logs with
  | nil =>
    constructor
    · rfl
    · intro g hmem
      simp [groupLogsByRound] at hmem
  | cons l rest =>
    have hne : ((l :: rest : List GameLog).isEmpty) = false := rfl
    have hunf : groupLogsByRound (l :: rest) =
        groupGo (l :: rest) [] 0 "day" { round := 0, nightLogs := [], dayLogs := [] } := by
      unfold groupLogsByRound
      rw [hne]
      rfl
    rw [hunf]
    constructor
    · rw [groupGo_partition (l :: rest) [] 0 "day" _ (fun h => absurd h (by decide))]
      rfl
    · exact groupGo_nonEmpty (l :: rest) [] 0 "day" _ (fun g h => by cases h)

/-- C10 witness: the partition property evaluated on the spec's basic
round-segmentation scenario log. -/
theorem segmentation_partitions_log_witness :
    segFlatten (groupLogsByRound
      [{ id := 1, type := "game.phase_change"
       , data := { phase := some "NIGHT_PHASE", round := some 1 }, timestamp := 0 },
       { id := 2, type := "game.night_action"
       , data := { channel := some "seer" }, timestamp := 1 },
       { id := 3, type := "game.phase_change"
       , data := { phase := some "DAY_PHASE", round := some 1 }, timestamp := 2 },
       { id := 4, type := "game.speech"
       , data := { player_id := some 3 }, timestamp := 3 }]) =
      [{ id := 1, type := "game.phase_change"
       , data := { phase := some "NIGHT_PHASE", round := some 1 }, timestamp := 0 },
       { id := 2, type := "game.night_action"
       , data := { channel := some "seer" }, timestamp := 1 },
       { id := 3, type := "game.phase_change"
       , data := { phase := some "DAY_PHASE", round := some 1 }, timestamp := 2 },
       { id := 4, type := "game.speech"
       , data := { player_id := some 3 }, timestamp := 3 }] :=
  (segmentation_partitions_log _).1

lemma head?_append_left {α : Type} (l m : List α) (a : α) (h : l.head? = some a) :
    (l ++ m).head? = some a := by
  cases l with
  | nil => simp at h
  | cons x xs => simpa using h

/-- Loop invariant for the segment-round sequence: when every
phase-change-to-night entry carries no usable payload round, each flushed
segment's round is strictly below the in-progress segment's round, the
in-progress segment is non-empty and carries the cursor round, and the first
assigned round value is 0. -/
lemma groupGo_rounds_inv (logs : List GameLog) :
    ∀ (groups : List RoundGroup) (cr : Nat) (cp : String) (cur : RoundGroup),
    (∀ l ∈ logs, isNightPC l = true → l.data.round = none ∨ l.data.round = some 0) →
    cur.round = cr →
    roundGroupNonEmpty cur = true →
    List.Chain' (· < ·) (groups.map RoundGroup.round ++ [cur.round]) →
    (groups.map RoundGroup.round ++ [cur.round]).head? = some 0 →
    List.Chain' (· < ·) ((groupGo logs groups cr cp cur).map RoundGroup.round) ∧
    ((groupGo logs groups cr cp cur).map RoundGroup.round).head? = some 0 := by
  induction logs with
  | nil =>
    intro groups cr cp cur _ _ hne hch hhd
    rw [groupGo_nil, if_pos hne, List.map_append]
    exact ⟨hch, hhd⟩
  | cons log rest ih =>
    intro groups cr cp cur hr hcr hne hch hhd
    by_cases hpc : log.type = "game.phase_change"
    · by_cases hnight : log.data.phase = some "NIGHT_PHASE"
      · have hnpc : isNightPC log = true := by
          simp [isNightPC, hpc, hnight]
        have htr := hr log (List.mem_cons_self _ _) hnpc
        have hjs : jsOrNat log.data.round (cr + 1) = cr + 1 := by
          rcases htr with h | h
          · rw [h, jsOrNat]
          · rw [h]
            simp [jsOrNat]
        rw [groupGo_cons_night log rest groups cr cp cur hpc hnight, if_pos hne, hjs]
        refine ih _ _ _ _ (fun l hl => hr l (List.mem_cons_of_mem _ hl)) rfl
          (by simp [roundGroupNonEmpty]) ?_ ?_
        · simp only [List.map_append, List.map_cons, List.map_nil]
          refine List.Chain'.append hch (by simp) ?_
          intro x hx y hy
          simp only [List.map_cons, List.map_nil, List.head?_cons, Option.mem_def,
            Option.some.injEq] at hy
          rw [List.getLast?_concat] at hx
          simp only [Option.mem_def, Option.some.injEq] at hx
          subst hx
          subst hy
          rw [hcr]
          exact Nat.lt_succ_self cr
        · simp only [List.map_append, List.map_cons, List.map_nil]
          exact head?_append_left _ _ _ hhd
      · by_cases hday : log.data.phase = some "DAY_PHASE"
        · rw [groupGo_cons_day log rest groups cr cp cur hpc hnight hday]
          refine ih _ _ _ _ (fun l hl => hr l (List.mem_cons_of_mem _ hl))
            (by rw [pushDay_round]; exact hcr) (pushDay_nonEmpty cur log) ?_ ?_
          · rw [pushDay_round]
            exact hch
          · rw [pushDay_round]
            exact hhd
        · rw [groupGo_cons_otherpc log rest groups cr cp cur hpc hnight hday]
          refine ih _ _ _ _ (fun l hl => hr l (List.mem_cons_of_mem _ hl))
            (by rw [pushCurrent_round]; exact hcr) (pushCurrent_nonEmpty cp cur log) ?_ ?_
          · rw [pushCurrent_round]
            exact hch
          · rw [pushCurrent_round]
            exact hhd
    · rw [groupGo_cons_nonpc log rest groups cr cp cur hpc]
      refine ih _ _ _ _ (fun l hl => hr l (List.mem_cons_of_mem _ hl))
        (by rw [pushCurrent_round]; exact hcr) (pushCurrent_nonEmpty cp cur log) ?_ ?_
      · rw [pushCurrent_round]
        exact hch
      · rw [pushCurrent_round]
        exact hhd

/-- Processing a first log entry that is not a phase-change-to-night buckets
it into the round-0 day buffer, whatever its kind. -/
lemma groupGo_first_step (l0 : GameLog) (rest : List GameLog)
    (hfirst : isNightPC l0 = false) :
    groupGo (l0 :: rest) [] 0 "day" { round := 0, nightLogs := [], dayLogs := [] } =
      groupGo rest [] 0 "day" { round := 0, nightLogs := [], dayLogs := [l0] } := by
  by_cases hpc : l0.type = "game.phase_change"
  · have hnight : l0.data.phase ≠ some "NIGHT_PHASE" := by
      intro hn
      simp [isNightPC, hpc, hn] at hfirst
    by_cases hday : l0.data.phase = some "DAY_PHASE"
    · rw [groupGo_cons_day _ _ _ _ _ _ hpc hnight hday]
      rfl
    · rw [groupGo_cons_otherpc _ _ _ _ _ _ hpc hnight hday]
      rfl
  · rw [groupGo_cons_nonpc _ _ _ _ _ _ hpc]
    rfl

/-- The two-entry log refuting the claimed segment-round properties: two
phase-change-to-night entries with explicit payload rounds 5 then 2. -/
def staleRoundLogs : List GameLog :=
  [{ id := 1, type := "game.phase_change"
   , data := { phase := some "NIGHT_PHASE", round := some 5 }, timestamp := 0 },
   { id := 2, type := "game.phase_change"
   , data := { phase := some "NIGHT_PHASE", round := some 2 }, timestamp := 1 }]

/-- C4 counterexample: on `staleRoundLogs` the segment rounds come out as
[5, 2] — the sequence neither starts at 0 nor is non-decreasing. -/
theorem segment_rounds_counterexample :
    ((groupLogsByRound staleRoundLogs).map RoundGroup.round = [5, 2]) ∧
    ¬ (List.Chain' (· ≤ ·) ((groupLogsByRound staleRoundLogs).map RoundGroup.round) ∧
       ((groupLogsByRound staleRoundLogs).map RoundGroup.round).head? = some 0) := by
  have hr : (groupLogsByRound staleRoundLogs).map RoundGroup.round = [5, 2] := by decide
  refine ⟨hr, ?_⟩
  intro hcon
  obtain ⟨hc, hh⟩ := hcon
  rw [hr] at hc hh
  · simp at hh

/-- C4 amended: when no phase-change-to-night entry carries a usable (nonzero)
explicit round — so every new segment's round is cursor + 1 — and the log
does not open with a phase-change-to-night, the segment rounds are
non-decreasing (in fact strictly increasing) and start at 0.  In general a
phase-change-to-night assigns the new segment the payload round when present
and nonzero, otherwise cursor + 1. -/
theorem segment_rounds_monotone_from_zero (l0 : GameLog) (rest : List GameLog)
    (hfirst : isNightPC l0 = false)
    (htriv : ∀ l ∈ l0 :: rest, isNightPC l = true →
      l.data.round = none ∨ l.data.round = some 0) :
    List.Chain' (· ≤ ·) ((groupLogsByRound (l0 :: rest)).map RoundGroup.round) ∧
    ((groupLogsByRound (l0 :: rest)).map RoundGroup.round).head? = some 0 := by
  have hunf : groupLogsByRound (l0 :: rest) =
      groupGo (l0 :: rest) [] 0 "day" { round := 0, nightLogs := [], dayLogs := [] } := rfl
  rw [hunf, groupGo_first_step l0 rest hfirst]
  have h := groupGo_rounds_inv rest [] 0 "day"
    { round := 0, nightLogs := [], dayLogs := [l0] }
    (fun l hl => htriv l (List.mem_cons_of_mem _ hl))
    rfl (by simp [roundGroupNonEmpty]) (by simp) (by simp)
  exact ⟨h.1.imp (fun a b hab => Nat.le_of_lt hab), h.2⟩

/-- C4 witness: a pre-game entry followed by two night transitions without
explicit rounds yields rounds [0, 1, 2]. -/
theorem segment_rounds_monotone_from_zero_witness :
    (isNightPC { id := 1, type := "game.speech"
               , data := { player_id := some 3 }, timestamp := 0 } = false) ∧
    List.Chain' (· ≤ ·) ((groupLogsByRound
      [{ id := 1, type := "game.speech", data := { player_id := some 3 }, timestamp := 0 },
       { id := 2, type := "game.phase_change"
       , data := { phase := some "NIGHT_PHASE" }, timestamp := 1 },
       { id := 3, type := "game.phase_change"
       , data := { phase := some "NIGHT_PHASE", round := some 0 }, timestamp := 2 }]).map
        RoundGroup.round) ∧
    ((groupLogsByRound
      [{ id := 1, type := "game.speech", data := { player_id := some 3 }, timestamp := 0 },
       { id := 2, type := "game.phase_change"
       , data := { phase := some "NIGHT_PHASE" }, timestamp := 1 },
       { id := 3, type := "game.phase_change"
       , data := { phase := some "NIGHT_PHASE", round := some 0 }, timestamp := 2 }]).map
        RoundGroup.round).head? = some 0 := by
  have h := segment_rounds_monotone_from_zero
    { id := 1, type := "game.speech", data := { player_id := some 3 }, timestamp := 0 }
    [{ id := 2, type := "game.phase_change"
     , data := { phase := some "NIGHT_PHASE" }, timestamp := 1 },
     { id := 3, type := "game.phase_change"
     , data := { phase := some "NIGHT_PHASE", round := some 0 }, timestamp := 2 }]
    (by decide)
    (by
      intro l hl hn
      fin_cases hl
      · simp [isNightPC] at hn
      · left
        rfl
      · right
        rfl)
  exact ⟨by decide, h.1, h.2⟩
